import Mathlib

/- Shallow embedding of the NASALPROM PROM copier core logic
   (completion classification, validation gate, smart TSV mode selection,
   tabular and narrative serializers, and the patient message composer).

   Answer slots are modelled as `Option Int` (JS `null` = unanswered);
   machine numbers in this program are small integers produced from radio
   values, so `Int` is exact.  Fallible code (JS `throw`) is modelled with
   `Except String`. -/

namespace NasalProm

/-- The five NOSE instrument item labels, in order. -/
def NOSE_ITEMS : List String :=
  ["Nasal congestion",
   "Nasal obstruction",
   "Trouble breathing through nose",
   "Trouble sleeping",
   "Unable to get enough air through nose during exercise"]

/-- The twenty-two SNOT-22 instrument item labels, in order. -/
def SNOT_ITEMS : List String :=
  ["Need to blow nose",
   "Sneezing",
   "Runny nose",
   "Nasal obstruction",
   "Loss of smell or taste",
   "Cough",
   "Post-nasal discharge",
   "Thick nasal discharge",
   "Ear fullness",
   "Dizziness",
   "Ear pain",
   "Facial pain/pressure",
   "Difficulty falling asleep",
   "Waking up at night",
   "Lack of a good night’s sleep",
   "Waking up tired",
   "Fatigue",
   "Reduced productivity",
   "Reduced concentration",
   "Frustrated/restless/irritable",
   "Sad",
   "Embarrassed"]

/-- `sum(arr)`: `arr.reduce((a, b) => a + b, 0)`. -/
def sum (arr : List Int) : Int := arr.foldl (fun a b => a + b) 0

/-- `ddmmyyyy(iso)`: empty input gives the empty string; otherwise the input
is split on `-` (JS `iso.split("-")`, modelled as a character split), and if
any of the first three components is missing or empty the input is returned
unchanged, else the components are reassembled as `d/m/y`. -/
def ddmmyyyy (iso : String) : String :=
  if iso = "" then ""
  else
    let parts := iso.split (fun c => c == '-')
    let y := parts[0]?.getD ""
    let m := parts[1]?.getD ""
    let d := parts[2]?.getD ""
    if y = "" ∨ m = "" ∨ d = "" then iso
    else d ++ "/" ++ m ++ "/" ++ y

/-- The completion classification of an answer set
(the JS strings "empty" / "complete" / "partial"). -/
inductive CompletionState
  | empty
  | complete
  | partialState
  deriving DecidableEq, Repr

/-- `completionState(scores)`: counts answered slots
(`scores.filter(v => v !== null).length`) and classifies. -/
def completionState (scores : List (Option Int)) : CompletionState :=
  let answered := (scores.filter (fun v => v.isSome)).length
  if answered = 0 then .empty
  else if answered = scores.length then .complete
  else .partialState

/-- `assertNotPartialOrThrow(label, scores)`: returns the completion state,
or throws for a partially completed instrument. -/
def assertNotPartialOrThrow (label : String) (scores : List (Option Int)) :
    Except String CompletionState :=
  let st := completionState scores
  if st = .partialState then
    .error (label ++ " is partly completed. Please answer all questions in " ++
      label ++ ", or clear it and leave it blank.")
  else
    .ok st

/-- `scoresToNumbers(scores)`: `scores.map(v => Number(v))`; JS `Number(null)`
is `0`, hence `Option.getD 0`. -/
def scoresToNumbers (scores : List (Option Int)) : List Int :=
  scores.map (fun v => v.getD 0)

/-- `buildFullBlockTSV(noseNums, snotNums)`: NOSE values, NOSE raw total,
SNOT values, SNOT total, joined by tabs. -/
def buildFullBlockTSV (noseNums snotNums : List Int) : String :=
  String.intercalate "\t"
    (noseNums.map toString ++ [toString (sum noseNums)] ++
     snotNums.map toString ++ [toString (sum snotNums)])

/-- `buildNoseOnlyTSV(noseNums)`: NOSE values then their sum, tab-joined. -/
def buildNoseOnlyTSV (noseNums : List Int) : String :=
  String.intercalate "\t" (noseNums.map toString ++ [toString (sum noseNums)])

/-- `buildSnotOnlyTSV(snotNums)`: SNOT values then their sum, tab-joined. -/
def buildSnotOnlyTSV (snotNums : List Int) : String :=
  String.intercalate "\t" (snotNums.map toString ++ [toString (sum snotNums)])

/-- The smart TSV mode ("full" / "nose" / "snot"). -/
inductive TsvMode
  | full
  | nose
  | snot
  deriving DecidableEq, Repr

/-- The record returned by `buildSmartTSV`. -/
structure SmartResult where
  mode : TsvMode
  tsv : String
  noseNums : Option (List Int)
  snotNums : Option (List Int)
  deriving DecidableEq, Repr

/-- `buildSmartTSV(noseScores, snotScores)`: validates both instruments,
rejects the both-empty case, then picks the full / nose-only / snot-only
row depending on which instruments are complete. -/
def buildSmartTSV (noseScores snotScores : List (Option Int)) :
    Except String SmartResult :=
  match assertNotPartialOrThrow "NOSE" noseScores with
  | .error e => .error e
  | .ok noseState =>
    match assertNotPartialOrThrow "SNOT-22" snotScores with
    | .error e => .error e
    | .ok snotState =>
      if noseState = .empty ∧ snotState = .empty then
        .error "Please complete NOSE and/or SNOT-22 before copying."
      else if noseState = .complete ∧ snotState = .complete then
        let noseNums := scoresToNumbers noseScores
        let snotNums := scoresToNumbers snotScores
        .ok ⟨.full, buildFullBlockTSV noseNums snotNums, some noseNums, some snotNums⟩
      else if noseState = .complete then
        let noseNums := scoresToNumbers noseScores
        .ok ⟨.nose, buildNoseOnlyTSV noseNums, some noseNums, none⟩
      else
        let snotNums := scoresToNumbers snotScores
        .ok ⟨.snot, buildSnotOnlyTSV snotNums, none, some snotNums⟩

/-- JS array indexing as rendered by a template literal: out-of-range
indexing gives `undefined`, which interpolates as the string "undefined". -/
def jsShowAt (nums : List Int) (i : Nat) : String :=
  match nums[i]? with
  | some v => toString v
  | none => "undefined"

/-- The `items.forEach((t, i) => lines.push(`- t: nums[i]`))` loop of
`buildEprText`, as a recursive function over the labels with the running
index made explicit. -/
def itemLines (nums : List Int) : List String → Nat → List String
  | [], _ => []
  | t :: ts, i => ("- " ++ t ++ ": " ++ jsShowAt nums i) :: itemLines nums ts (i + 1)

/-- The `meta` array of `buildEprText`: one entry per non-empty metadata
field, in order Date, Timepoint, Dataset. -/
def eprMeta (dateIso timepoint blockLabel : String) : List String :=
  (if dateIso ≠ "" then ["Date: " ++ ddmmyyyy dateIso] else []) ++
  (if timepoint ≠ "" then ["Timepoint: " ++ timepoint] else []) ++
  (if blockLabel ≠ "" then ["Dataset: " ++ blockLabel] else [])

/-- The NOSE block of `buildEprText`: raw total, scaled score, item lines,
then a blank line; nothing at all when the scores are absent. -/
def noseSection : Option (List Int) → List String
  | none => []
  | some noseNums =>
    ("NOSE raw total: " ++ toString (sum noseNums) ++ " / 20") ::
    ("NOSE score (0–100): " ++ toString (sum noseNums * 5) ++ " / 100") ::
    itemLines noseNums NOSE_ITEMS 0 ++ [""]

/-- The SNOT-22 block of `buildEprText`: total, item lines, then a blank
line; nothing at all when the scores are absent. -/
def snotSection : Option (List Int) → List String
  | none => []
  | some snotNums =>
    ("SNOT-22 total: " ++ toString (sum snotNums) ++ " / 110") ::
    itemLines snotNums SNOT_ITEMS 0 ++ [""]

/-- The `while (lines.length && lines[lines.length - 1] === "") lines.pop()`
loop of `buildEprText`: removes all trailing empty lines. -/
def dropTrailingBlanks (lines : List String) : List String :=
  ((lines.reverse.dropWhile (fun l => l == "")).reverse)

/-- The `lines` array of `buildEprText` just before joining: header,
optional metadata line, blank separator, the two optional instrument blocks,
with trailing blank lines removed. -/
def eprLines (dateIso timepoint blockLabel : String)
    (noseNumsOrNull snotNumsOrNull : Option (List Int)) : List String :=
  let meta := eprMeta dateIso timepoint blockLabel
  dropTrailingBlanks
    (["PROMs recorded:"] ++
     (if meta ≠ [] then [String.intercalate " | " meta] else []) ++
     [""] ++
     noseSection noseNumsOrNull ++
     snotSection snotNumsOrNull)

/-- `buildEprText(dateIso, timepoint, blockLabel, noseNumsOrNull,
snotNumsOrNull)`: the narrative report, `lines.join("\n")`. -/
def buildEprText (dateIso timepoint blockLabel : String)
    (noseNumsOrNull snotNumsOrNull : Option (List Int)) : String :=
  String.intercalate "\n" (eprLines dateIso timepoint blockLabel noseNumsOrNull snotNumsOrNull)

/-- The `{subject, body}` record returned by `buildPatientMessageOrThrow`. -/
structure PatientMessage where
  subject : String
  body : String
  deriving DecidableEq, Repr

/-- The `tsvBits` array of `buildPatientMessageOrThrow` / the patient
preview: one labeled TSV block chosen by which instruments are complete. -/
def tsvBits : Option (List Int) → Option (List Int) → List String
  | some noseNums, some snotNums => ["FULL TSV:\n" ++ buildFullBlockTSV noseNums snotNums]
  | some noseNums, none => ["NOSE TSV only:\n" ++ buildNoseOnlyTSV noseNums]
  | none, some snotNums => ["SNOT-22 TSV only:\n" ++ buildSnotOnlyTSV snotNums]
  | none, none => []

/-- `buildPatientMessageOrThrow()`: validates both instruments, rejects the
both-empty case, and composes the mail subject and body from the narrative
text and (by default) a labeled TSV block. -/
def buildPatientMessageOrThrow (includeTsvLine : Bool) (dateIso timepoint : String)
    (noseScores snotScores : List (Option Int)) : Except String PatientMessage :=
  match assertNotPartialOrThrow "NOSE" noseScores with
  | .error e => .error e
  | .ok noseState =>
    match assertNotPartialOrThrow "SNOT-22" snotScores with
    | .error e => .error e
    | .ok snotState =>
      if noseState = .empty ∧ snotState = .empty then
        .error "Please complete NOSE and/or SNOT-22 before emailing results."
      else
        let noseNums := if noseState = .complete then some (scoresToNumbers noseScores) else none
        let snotNums := if snotState = .complete then some (scoresToNumbers snotScores) else none
        let readable := buildEprText dateIso timepoint "" noseNums snotNums
        let subjectParts := ["NASALPROM PROMs"] ++
          (if dateIso ≠ "" then [ddmmyyyy dateIso] else []) ++
          (if timepoint ≠ "" then [timepoint] else [])
        let subject := String.intercalate " – " subjectParts
        if includeTsvLine = false then
          .ok ⟨subject, readable ++ "\n"⟩
        else
          .ok ⟨subject, readable ++ "\n\n" ++
            String.intercalate "\n\n" (tsvBits noseNums snotNums) ++ "\n"⟩

/-- Observation used to state the tabular claims: the list of tab-separated
fields of a row (JS `row.split("\t")`, as a character split). -/
def tsvFields (row : String) : List String :=
  row.split (fun c => c == '\t')

/-! ### Helper lemmas about the completion classifier -/

lemma answered_eq_zero_iff (scores : List (Option Int)) :
    (scores.filter (fun v => v.isSome)).length = 0 ↔ ∀ v ∈ scores, v = none := by
  rw [List.length_eq_zero, List.filter_eq_nil_iff]
  simp [Option.not_isSome_iff_eq_none]

lemma answered_eq_length_iff (scores : List (Option Int)) :
    (scores.filter (fun v => v.isSome)).length = scores.length ↔ ∀ v ∈ scores, v ≠ none := by
  rw [List.filter_length_eq_length]
  simp [Option.isSome_iff_ne_none]

lemma completionState_eq_empty_iff (scores : List (Option Int)) :
    completionState scores = .empty ↔ ∀ v ∈ scores, v = none := by
  simp only [completionState]
  split
  · rename_i h0
    exact iff_of_true rfl ((answered_eq_zero_iff scores).1 h0)
  · rename_i h0
    have hne : ¬ ∀ v ∈ scores, v = none := fun hc => h0 ((answered_eq_zero_iff scores).2 hc)
    split
    · exact iff_of_false (fun h => nomatch h) hne
    · exact iff_of_false (fun h => nomatch h) hne

lemma completionState_eq_complete_iff (scores : List (Option Int)) :
    completionState scores = .complete ↔ scores ≠ [] ∧ ∀ v ∈ scores, v ≠ none := by
  simp only [completionState]
  split
  · rename_i h0
    refine iff_of_false (fun h => nomatch h) ?_
    rintro ⟨hne, hall⟩
    rcases List.exists_mem_of_ne_nil _ hne with ⟨v, hv⟩
    exact hall v hv ((answered_eq_zero_iff scores).1 h0 v hv)
  · rename_i h0
    split
    · rename_i hL
      refine iff_of_true rfl ⟨?_, (answered_eq_length_iff scores).1 hL⟩
      rintro rfl
      exact h0 (by simp at hL; simp [hL])
    · rename_i hL
      refine iff_of_false (fun h => nomatch h) ?_
      rintro ⟨hne, hall⟩
      exact hL ((answered_eq_length_iff scores).2 hall)

lemma completionState_eq_partialState_iff (scores : List (Option Int)) :
    completionState scores = .partialState ↔
      (∃ v ∈ scores, v ≠ none) ∧ ∃ v ∈ scores, v = none := by
  constructor
  · intro h
    have h0 : ¬ ∀ v ∈ scores, v = none := by
      intro hc
      rw [(completionState_eq_empty_iff scores).2 hc] at h
      exact absurd h (by simp)
    have hL : ¬ (scores ≠ [] ∧ ∀ v ∈ scores, v ≠ none) := by
      intro hc
      rw [(completionState_eq_complete_iff scores).2 hc] at h
      exact absurd h (by simp)
    push_neg at h0 hL
    refine ⟨⟨h0.choose, h0.choose_spec.1, h0.choose_spec.2⟩, ?_⟩
    have hne : scores ≠ [] := by
      rintro rfl
      exact absurd h0.choose_spec.1 (List.not_mem_nil _)
    rcases hL hne with ⟨v, hv, hvn⟩
    exact ⟨v, hv, not_not.1 (by simpa using hvn)⟩
  · rintro ⟨⟨v, hv, hvn⟩, ⟨w, hw, hwn⟩⟩
    cases h : completionState scores
    · exact absurd ((completionState_eq_empty_iff scores).1 h v hv) hvn
    · exact absurd hwn (((completionState_eq_complete_iff scores).1 h).2 w hw)
    · rfl

/-! ### Claim theorems: completion classifier -/

/-- C2 counterexample: at the zero-length answer list the claimed
biconditional "complete iff every slot is answered" fails, because every
slot of `[]` is vacuously answered yet the classifier returns `empty`. -/
theorem completionState_vacuous_counterexample :
    ¬ (completionState ([] : List (Option Int)) = .complete ↔
        ∀ v ∈ ([] : List (Option Int)), v ≠ none) := by
  decide

/-- C2 (amended): `completionState` is a pure total function returning
`empty` iff no slot is answered, `complete` iff the list is nonempty and
every slot is answered, and the partial state in every other case (some
slot answered and some slot unanswered). -/
theorem completionState_classification (scores : List (Option Int)) :
    (completionState scores = .empty ↔ ∀ v ∈ scores, v = none)
    ∧ (completionState scores = .complete ↔ scores ≠ [] ∧ ∀ v ∈ scores, v ≠ none)
    ∧ (completionState scores = .partialState ↔
        (∃ v ∈ scores, v ≠ none) ∧ ∃ v ∈ scores, v = none) :=
  ⟨completionState_eq_empty_iff scores, completionState_eq_complete_iff scores,
    completionState_eq_partialState_iff scores⟩

/-- C9: on the zero-length answer list the classifier returns `empty`, not
`complete` — the zero-answered check takes precedence over the vacuously
true "all slots answered" condition — and on every input exactly one of the
three states is reported. -/
theorem completionState_empty_list_and_exclusive :
    completionState ([] : List (Option Int)) = .empty
    ∧ completionState ([] : List (Option Int)) ≠ .complete
    ∧ ∀ scores : List (Option Int),
        (completionState scores = .empty ∧ completionState scores ≠ .complete
          ∧ completionState scores ≠ .partialState)
        ∨ (completionState scores = .complete ∧ completionState scores ≠ .empty
          ∧ completionState scores ≠ .partialState)
        ∨ (completionState scores = .partialState ∧ completionState scores ≠ .empty
          ∧ completionState scores ≠ .complete) := by
  refine ⟨rfl, by decide, fun scores => ?_⟩
  cases h : completionState scores
  · exact Or.inl ⟨rfl, by simp [h], by simp [h]⟩
  · exact Or.inr (Or.inl ⟨rfl, by simp [h], by simp [h]⟩)
  · exact Or.inr (Or.inr ⟨rfl, by simp [h], by simp [h]⟩)

/-- C3: `assertNotPartialOrThrow` returns the classification when it is not
the partial state, and on a partial input it never returns: it fails with
exactly the message "<label> is partly completed. Please answer all
questions in <label>, or clear it and leave it blank.", which contains the
supplied label. -/
theorem assertNotPartialOrThrow_spec (label : String) (scores : List (Option Int)) :
    (completionState scores ≠ .partialState →
      assertNotPartialOrThrow label scores = .ok (completionState scores))
    ∧ (completionState scores = .partialState →
      assertNotPartialOrThrow label scores =
        .error (label ++ " is partly completed. Please answer all questions in " ++
          label ++ ", or clear it and leave it blank.")
      ∧ (∀ st, assertNotPartialOrThrow label scores ≠ .ok st)
      ∧ ∃ pre post, (label ++ " is partly completed. Please answer all questions in " ++
          label ++ ", or clear it and leave it blank.") = pre ++ label ++ post) := by
  constructor
  · intro h
    simp [assertNotPartialOrThrow, h]
  · intro h
    refine ⟨by simp [assertNotPartialOrThrow, h], fun st => by simp [assertNotPartialOrThrow, h], ?_⟩
    exact ⟨label ++ " is partly completed. Please answer all questions in ",
      ", or clear it and leave it blank.", rfl⟩

/-- C3 witness: a partly answered NOSE list is rejected with the exact
message, and a fully answered single-slot list is accepted as complete. -/
theorem assertNotPartialOrThrow_spec_witness :
    (completionState [some 1, none] = .partialState
      ∧ assertNotPartialOrThrow "NOSE" [some 1, none] =
        .error "NOSE is partly completed. Please answer all questions in NOSE, or clear it and leave it blank.")
    ∧ (completionState [some 1] ≠ .partialState
      ∧ assertNotPartialOrThrow "NOSE" [some 1] = .ok .complete) := by
  constructor
  · refine ⟨by decide, ?_⟩
    have h := ((assertNotPartialOrThrow_spec "NOSE" [some 1, none]).2 (by decide)).1
    exact h.trans (congrArg Except.error (by decide))
  · refine ⟨by decide, ?_⟩
    have h := (assertNotPartialOrThrow_spec "NOSE" [some 1]).1 (by decide)
    exact h.trans (congrArg Except.ok (by decide))

/-! ### Claim theorem: smart TSV mode selection -/

/-- C1: for answer sets whose completion states are individually
non-partial, `buildSmartTSV` yields exactly one of four outcomes: both
complete gives mode full with the combined row; only NOSE complete gives
the NOSE-only mode and row (no SNOT numbers fabricated); only SNOT-22
complete gives the SNOT-only mode and row (no NOSE numbers fabricated);
both empty fails with "Please complete NOSE and/or SNOT-22 before
copying.". -/
theorem buildSmartTSV_modes (noseScores snotScores : List (Option Int))
    (hn : completionState noseScores ≠ .partialState)
    (hs : completionState snotScores ≠ .partialState) :
    (completionState noseScores = .complete ∧ completionState snotScores = .complete →
      buildSmartTSV noseScores snotScores =
        .ok ⟨.full, buildFullBlockTSV (scoresToNumbers noseScores) (scoresToNumbers snotScores),
          some (scoresToNumbers noseScores), some (scoresToNumbers snotScores)⟩)
    ∧ (completionState noseScores = .complete ∧ completionState snotScores = .empty →
      buildSmartTSV noseScores snotScores =
        .ok ⟨.nose, buildNoseOnlyTSV (scoresToNumbers noseScores),
          some (scoresToNumbers noseScores), none⟩)
    ∧ (completionState noseScores = .empty ∧ completionState snotScores = .complete →
      buildSmartTSV noseScores snotScores =
        .ok ⟨.snot, buildSnotOnlyTSV (scoresToNumbers snotScores),
          none, some (scoresToNumbers snotScores)⟩)
    ∧ (completionState noseScores = .empty ∧ completionState snotScores = .empty →
      buildSmartTSV noseScores snotScores =
        .error "Please complete NOSE and/or SNOT-22 before copying.") := by
  refine ⟨?_, ?_, ?_, ?_⟩ <;> rintro ⟨h1, h2⟩ <;>
    simp [buildSmartTSV, assertNotPartialOrThrow, h1, h2]

/-- C1 witness: a complete one-item NOSE list with an empty SNOT list takes
the NOSE-only branch. -/
theorem buildSmartTSV_modes_witness :
    completionState [some 2] ≠ .partialState
    ∧ completionState [none, none] ≠ .partialState
    ∧ buildSmartTSV [some 2] [none, none] =
        .ok ⟨.nose, buildNoseOnlyTSV (scoresToNumbers [some 2]), some (scoresToNumbers [some 2]), none⟩ :=
  ⟨by decide, by decide,
    (buildSmartTSV_modes [some 2] [none, none] (by decide) (by decide)).2.1 ⟨by decide, by decide⟩⟩

/-! ### Claim theorem: date formatter -/

/-- C10: `ddmmyyyy` is total and never mixes formats: the empty string maps
to the empty string; when the input splits on "-" with first three
components present and nonempty the result is "d/m/y" from those
components; otherwise the input is returned verbatim. -/
theorem ddmmyyyy_spec (iso : String) :
    ddmmyyyy "" = ""
    ∧ (∀ y m d rest, iso.split (fun c => c == '-') = y :: m :: d :: rest →
        y ≠ "" → m ≠ "" → d ≠ "" → ddmmyyyy iso = d ++ "/" ++ m ++ "/" ++ y)
    ∧ (iso ≠ "" →
        (¬ ∃ y m d rest, iso.split (fun c => c == '-') = y :: m :: d :: rest
            ∧ y ≠ "" ∧ m ≠ "" ∧ d ≠ "") →
        ddmmyyyy iso = iso) := by
  refine ⟨rfl, ?_, ?_⟩
  · intro y m d rest hsplit hy hm hd
    have hne : iso ≠ "" := by
      rintro rfl
      rw [show String.split "" (fun c => c == '-') = [""] by
        rw [String.split_of_valid]; decide] at hsplit
      simp at hsplit
    simp [ddmmyyyy, hne, hsplit, hy, hm, hd]
  · intro hne hnex
    simp only [ddmmyyyy, if_neg hne]
    rcases hl : iso.split (fun c => c == '-') with _ | ⟨y, _ | ⟨m, _ | ⟨d, rest⟩⟩⟩
    · simp
    · by_cases hy : y = "" <;> simp [hy]
    · by_cases hy : y = "" <;> by_cases hm : m = "" <;> simp [hy, hm]
    · have : y = "" ∨ m = "" ∨ d = "" := by
        by_contra hc
        push_neg at hc
        exact hnex ⟨y, m, d, rest, hl, hc.1, hc.2.1, hc.2.2⟩
      rcases this with h | h | h <;> simp [h]

/-- C10 witness: a well-formed ISO date is reformatted and a two-component
date passes through unchanged. -/
theorem ddmmyyyy_spec_witness :
    ddmmyyyy "2024-03-05" = "05/03/2024" ∧ ddmmyyyy "2024-03" = "2024-03" := by
  constructor
  · have hsplit : String.split "2024-03-05" (fun c => c == '-') = ["2024", "03", "05"] := by
      rw [String.split_of_valid]
      decide
    have h := (ddmmyyyy_spec "2024-03-05").2.1 "2024" "03" "05" [] hsplit
      (by decide) (by decide) (by decide)
    exact h.trans (by decide)
  · have hsplit : String.split "2024-03" (fun c => c == '-') = ["2024", "03"] := by
      rw [String.split_of_valid]
      decide
    refine (ddmmyyyy_spec "2024-03").2.2 (by decide) ?_
    rintro ⟨y, m, d, rest, hs, -, -, -⟩
    rw [hsplit] at hs
    simp at hs

/-! ### Helper lemmas for the tabular serializer -/

lemma intercalate_go_data (acc s : String) (l : List String) :
    (String.intercalate.go acc s l).data =
      acc.data ++ (l.map (fun x => s.data ++ x.data)).flatten := by
  induction l generalizing acc with
  | nil => simp [String.intercalate.go]
  | cons b bs ih =>
    rw [String.intercalate.go, ih]
    simp

lemma intercalate_cons_data (s a : String) (as : List String) :
    (String.intercalate s (a :: as)).data =
      a.data ++ (as.map (fun x => s.data ++ x.data)).flatten := by
  rw [String.intercalate]
  exact intercalate_go_data a s as

lemma mk_data (s : String) : String.mk s.data = s := rfl

lemma digitChar_ne_tab (n : Nat) : Nat.digitChar n ≠ '\t' := by
  match n with
  | 0 => decide
  | 1 => decide
  | 2 => decide
  | 3 => decide
  | 4 => decide
  | 5 => decide
  | 6 => decide
  | 7 => decide
  | 8 => decide
  | 9 => decide
  | 10 => decide
  | 11 => decide
  | 12 => decide
  | 13 => decide
  | 14 => decide
  | 15 => decide
  | (k + 16) =>
    unfold Nat.digitChar
    repeat rw [if_neg (by omega)]
    decide

lemma tab_not_mem_toDigitsCore (b : Nat) :
    ∀ (f n : Nat) (acc : List Char), '\t' ∉ acc → '\t' ∉ Nat.toDigitsCore b f n acc := by
  intro f
  induction f with
  | zero => intro n acc hacc; simpa [Nat.toDigitsCore] using hacc
  | succ f ih =>
    intro n acc hacc
    rw [Nat.toDigitsCore]
    split
    · intro hmem
      rcases List.mem_cons.1 hmem with h | h
      · exact digitChar_ne_tab _ h.symm
      · exact hacc h
    · refine ih _ _ ?_
      intro hmem
      rcases List.mem_cons.1 hmem with h | h
      · exact digitChar_ne_tab _ h.symm
      · exact hacc h

lemma toDigitsCore_ne_nil (b : Nat) :
    ∀ (f n : Nat) (acc : List Char), f ≠ 0 ∨ acc ≠ [] → Nat.toDigitsCore b f n acc ≠ [] := by
  intro f
  induction f with
  | zero =>
    intro n acc h
    rcases h with h | h
    · exact absurd rfl h
    · simpa [Nat.toDigitsCore] using h
  | succ f ih =>
    intro n acc _
    rw [Nat.toDigitsCore]
    split
    · simp
    · exact ih _ _ (Or.inr (by simp))

lemma tab_not_mem_natRepr (n : Nat) : '\t' ∉ (Nat.repr n).data :=
  tab_not_mem_toDigitsCore 10 (n + 1) n [] (by simp)

lemma natRepr_ne_empty (n : Nat) : Nat.repr n ≠ "" := by
  intro h
  have := congrArg String.data h
  exact toDigitsCore_ne_nil 10 (n + 1) n [] (Or.inl (by simp)) this

lemma tab_not_mem_intToString (i : Int) : '\t' ∉ (toString i).data := by
  cases i with
  | ofNat m => exact tab_not_mem_natRepr m
  | negSucc m =>
    show '\t' ∉ ("-" ++ Nat.repr (m + 1)).data
    rw [String.data_append]
    intro hmem
    rcases List.mem_append.1 hmem with h | h
    · simp at h
    · exact tab_not_mem_natRepr _ h

lemma intToString_ne_empty (i : Int) : toString i ≠ "" := by
  cases i with
  | ofNat m => exact natRepr_ne_empty m
  | negSucc m =>
    show ("-" ++ Nat.repr (m + 1)) ≠ ""
    intro h
    have := congrArg String.data h
    rw [String.data_append] at this
    simp at this

lemma tsvFields_intercalate :
    ∀ (a : String) (as : List String), (∀ c ∈ a :: as, '\t' ∉ c.data) →
      tsvFields (String.intercalate "\t" (a :: as)) = a :: as := by
  intro a as
  induction as generalizing a with
  | nil =>
    intro h
    rw [tsvFields, String.split_of_valid]
    have : (String.intercalate "\t" [a]).data = a.data := by
      rw [intercalate_cons_data]
      simp
    rw [this, List.splitOnP_eq_single]
    · rfl
    · intro x hx
      simp only [beq_iff_eq]
      intro hc
      exact h a (by simp) (hc ▸ hx)
  | cons b bs ih =>
    intro h
    rw [tsvFields, String.split_of_valid]
    have hdata : (String.intercalate "\t" (a :: b :: bs)).data =
        a.data ++ '\t' :: (String.intercalate "\t" (b :: bs)).data := by
      rw [intercalate_cons_data, intercalate_cons_data]
      simp [show ("\t" : String).data = ['\t'] from rfl]
    rw [hdata, List.splitOnP_first _ _ ?_ '\t' (by simp) _]
    · have hrec := ih b (fun c hc => h c (by simpa using Or.inr hc))
      rw [tsvFields, String.split_of_valid] at hrec
      have hdm : String.data ∘ String.mk = id := funext fun l => rfl
      have hmd : String.mk ∘ String.data = id := funext fun x => rfl
      have hsp : (List.splitOnP (fun c => c == '\t') (String.intercalate "\t" (b :: bs)).data) =
          (b :: bs).map String.data := by
        have hmapmk := congrArg (List.map String.data) hrec
        rwa [List.map_map, hdm, List.map_id] at hmapmk
      rw [hsp]
      rw [List.map_cons, mk_data, List.map_map, hmd, List.map_id]
    · intro x hx
      simp only [beq_iff_eq]
      intro hc
      exact h a (by simp) (hc ▸ hx)

lemma tsvFields_int_intercalate (cols : List String)
    (h : ∀ c ∈ cols, ∃ i : Int, c = toString i) (hne : cols ≠ []) :
    tsvFields (String.intercalate "\t" cols) = cols := by
  cases cols with
  | nil => exact absurd rfl hne
  | cons a as =>
    apply tsvFields_intercalate
    intro c hc
    rcases h c hc with ⟨i, rfl⟩
    exact tab_not_mem_intToString i

/-! ### Claim theorem: tabular serializer row shape -/

/-- C4: splitting the full-mode row on tab gives exactly the 5 NOSE values,
their sum, the 22 SNOT values and their sum — 29 fields, each the plain
decimal rendering of its integer, with a nonempty last field (hence no
trailing tab); the nose-only row has 6 fields and the snot-only row 23. -/
theorem tsv_row_shape (ns ss : List Int) (hn : ns.length = 5) (hs : ss.length = 22) :
    tsvFields (buildFullBlockTSV ns ss) =
      ns.map toString ++ [toString (sum ns)] ++ ss.map toString ++ [toString (sum ss)]
    ∧ (tsvFields (buildFullBlockTSV ns ss)).length = 29
    ∧ (tsvFields (buildFullBlockTSV ns ss)).take 5 = ns.map toString
    ∧ (tsvFields (buildFullBlockTSV ns ss))[5]? = some (toString (sum ns))
    ∧ ((tsvFields (buildFullBlockTSV ns ss)).drop 6).take 22 = ss.map toString
    ∧ (tsvFields (buildFullBlockTSV ns ss))[28]? = some (toString (sum ss))
    ∧ (tsvFields (buildFullBlockTSV ns ss)).getLast? ≠ some ""
    ∧ tsvFields (buildNoseOnlyTSV ns) = ns.map toString ++ [toString (sum ns)]
    ∧ (tsvFields (buildNoseOnlyTSV ns)).length = 6
    ∧ tsvFields (buildSnotOnlyTSV ss) = ss.map toString ++ [toString (sum ss)]
    ∧ (tsvFields (buildSnotOnlyTSV ss)).length = 23 := by
  have hA : (ns.map toString).length = 5 := by simp [hn]
  have hC : (ss.map toString).length = 22 := by simp [hs]
  have hfull : tsvFields (buildFullBlockTSV ns ss) =
      ns.map toString ++ [toString (sum ns)] ++ ss.map toString ++ [toString (sum ss)] := by
    rw [buildFullBlockTSV]
    apply tsvFields_int_intercalate
    · intro c hc
      simp only [List.mem_append, List.mem_map, List.mem_singleton] at hc
      rcases hc with ((⟨i, _, rfl⟩ | rfl) | ⟨i, _, rfl⟩) | rfl
      · exact ⟨i, rfl⟩
      · exact ⟨sum ns, rfl⟩
      · exact ⟨i, rfl⟩
      · exact ⟨sum ss, rfl⟩
    · simp
  have hnose : tsvFields (buildNoseOnlyTSV ns) = ns.map toString ++ [toString (sum ns)] := by
    rw [buildNoseOnlyTSV]
    apply tsvFields_int_intercalate
    · intro c hc
      simp only [List.mem_append, List.mem_map, List.mem_singleton] at hc
      rcases hc with ⟨i, _, rfl⟩ | rfl
      · exact ⟨i, rfl⟩
      · exact ⟨sum ns, rfl⟩
    · simp
  have hsnot : tsvFields (buildSnotOnlyTSV ss) = ss.map toString ++ [toString (sum ss)] := by
    rw [buildSnotOnlyTSV]
    apply tsvFields_int_intercalate
    · intro c hc
      simp only [List.mem_append, List.mem_map, List.mem_singleton] at hc
      rcases hc with ⟨i, _, rfl⟩ | rfl
      · exact ⟨i, rfl⟩
      · exact ⟨sum ss, rfl⟩
    · simp
  refine ⟨hfull, ?_, ?_, ?_, ?_, ?_, ?_, hnose, ?_, hsnot, ?_⟩
  · rw [hfull]; simp [hn, hs]
  · rw [hfull, List.append_assoc, List.append_assoc]
    exact List.take_left' hA
  · rw [hfull, List.append_assoc, List.append_assoc,
      List.getElem?_append_right (by simp [hA])]
    simp [hA]
  · rw [hfull, List.append_assoc, List.drop_left' (by simp [hA])]
    exact List.take_left' hC
  · rw [hfull, List.getElem?_append_right (by simp [hA, hC])]
    simp [hA, hC]
  · rw [hfull]
    simp only [List.getLast?_append]
    simp [intToString_ne_empty (sum ss)]
  · rw [hnose]; simp [hn]
  · rw [hsnot]; simp [hs]

/-- C4 witness: concrete complete NOSE and SNOT value lists give the stated
field counts. -/
theorem tsv_row_shape_witness :
    (tsvFields (buildFullBlockTSV [0, 1, 2, 3, 4] (List.replicate 22 2))).length = 29
    ∧ (tsvFields (buildNoseOnlyTSV [0, 1, 2, 3, 4])).length = 6 := by
  have h := tsv_row_shape [0, 1, 2, 3, 4] (List.replicate 22 2) (by decide) (by decide)
  exact ⟨h.2.1, h.2.2.2.2.2.2.2.2.1⟩

/-! ### Helper lemmas for the narrative serializer -/

lemma getLast?_dropTrailingBlanks (l : List String) :
    (dropTrailingBlanks l).getLast? ≠ some "" := by
  unfold dropTrailingBlanks
  rw [List.getLast?_reverse]
  generalize l.reverse = r
  induction r with
  | nil => simp
  | cons a r ih =>
    rw [List.dropWhile_cons]
    split
    · exact ih
    · rename_i h
      simp only [List.head?_cons, ne_eq, Option.some.injEq]
      intro hc
      exact h (by simp [hc])

lemma dropTrailingBlanks_sublist (l : List String) :
    List.Sublist (dropTrailingBlanks l) l := by
  unfold dropTrailingBlanks
  have h := List.dropWhile_sublist (l := l.reverse) (fun s => s == "")
  simpa using h.reverse

lemma infix_dropTrailingBlanks (s mid t : List String) (h : mid.getLast? ≠ some "") :
    mid <:+: dropTrailingBlanks (s ++ mid ++ t) := by
  rcases List.eq_nil_or_concat mid with rfl | ⟨ms, x, rfl⟩
  · exact List.nil_infix
  · simp only [List.concat_eq_append] at h ⊢
    have hx : x ≠ "" := by
      simpa [List.getLast?_concat] using h
    unfold dropTrailingBlanks
    rw [show s ++ (ms ++ [x]) ++ t = (s ++ ms ++ [x]) ++ t by simp]
    rw [List.reverse_append, List.dropWhile_append]
    split
    · rw [show (s ++ ms ++ [x]).reverse = x :: (ms.reverse ++ s.reverse) by simp]
      rw [List.dropWhile_cons]
      rw [if_neg (by simp [hx])]
      refine ⟨s, [], ?_⟩
      simp
    · refine ⟨s, ((t.reverse).dropWhile (fun l => l == "")).reverse, ?_⟩
      simp

lemma append_ne_empty_of_left (s x : String) (h : s.data ≠ []) : s ++ x ≠ "" := by
  intro he
  have hd := congrArg String.data he
  rw [String.data_append] at hd
  rcases List.append_eq_nil.1 hd with ⟨h1, _⟩
  exact h h1

lemma head_of_prefix {α : Type} {a : α} {p l : List α} (h : (a :: p) <+: l) :
    ∃ u, l = a :: u := by
  rcases h with ⟨u, rfl⟩
  exact ⟨p ++ u, rfl⟩

lemma not_prefix_of_head_ne {q line : String} {a c : Char} {ps rest : List Char}
    (hq : q.data = a :: ps) (hdata : line.data = c :: rest) (hc : c ≠ a) :
    ¬ (q.data <+: line.data) := by
  intro hpre
  rw [hq, hdata] at hpre
  rcases head_of_prefix hpre with ⟨u, hu⟩
  injection hu with h1 _
  exact hc h1

lemma not_prefix_of_nil {q line : String} {a : Char} {ps : List Char}
    (hq : q.data = a :: ps) (hdata : line.data = []) :
    ¬ (q.data <+: line.data) := by
  intro hpre
  rw [hq, hdata] at hpre
  rcases hpre with ⟨u, hu⟩
  simp at hu

lemma itemLines_length (nums : List Int) :
    ∀ (items : List String) (i : Nat), (itemLines nums items i).length = items.length := by
  intro items
  induction items with
  | nil => intro i; rfl
  | cons t ts ih => intro i; simp [itemLines, ih]

lemma mem_itemLines_head (nums : List Int) :
    ∀ (items : List String) (i : Nat) (line : String), line ∈ itemLines nums items i →
      ∃ rest, line.data = '-' :: rest := by
  intro items
  induction items with
  | nil => intro i line h; simp [itemLines] at h
  | cons t ts ih =>
    intro i line h
    rw [itemLines] at h
    rcases List.mem_cons.1 h with rfl | h
    · refine ⟨' ' :: (t.data ++ (": ".data ++ (jsShowAt nums i).data)), ?_⟩
      simp only [String.data_append, List.append_assoc]
      rfl
    · exact ih _ line h

lemma eprMeta_mem_head (d t b m : String) (hm : m ∈ eprMeta d t b) :
    (∃ rest, m.data = 'D' :: rest) ∨ ∃ rest, m.data = 'T' :: rest := by
  unfold eprMeta at hm
  rcases List.mem_append.1 hm with hm | hm
  · rcases List.mem_append.1 hm with hm | hm
    · split at hm
      · rcases List.mem_singleton.1 hm with rfl
        exact Or.inl ⟨_, by rw [String.data_append]; rfl⟩
      · simp at hm
    · split at hm
      · rcases List.mem_singleton.1 hm with rfl
        exact Or.inr ⟨_, by rw [String.data_append]; rfl⟩
      · simp at hm
  · split at hm
    · rcases List.mem_singleton.1 hm with rfl
      exact Or.inl ⟨_, by rw [String.data_append]; rfl⟩
    · simp at hm

lemma data_head_of_left {s x : String} {c : Char} {r : List Char} (hs : s.data = c :: r) :
    ∃ u, (s ++ x).data = c :: u :=
  ⟨r ++ x.data, by rw [String.data_append, hs]; rfl⟩

lemma noseSection_infix_eprLines (d t b : String) (snot : Option (List Int)) (ns : List Int)
    (blk : List String) (h1 : noseSection (some ns) = blk ++ [""])
    (hlast : blk.getLast? ≠ some "") :
    blk <:+: eprLines d t b (some ns) snot := by
  simp only [eprLines]
  rw [h1]
  have h := infix_dropTrailingBlanks
    (["PROMs recorded:"] ++
      (if eprMeta d t b ≠ [] then [String.intercalate " | " (eprMeta d t b)] else []) ++ [""])
    blk ([""] ++ snotSection snot) hlast
  simpa [List.append_assoc] using h

/-! ### Claim theorem: narrative serializer, NOSE block -/

/-- C5: a narrative report with NOSE scores present contains, consecutively
and in order, the line "NOSE raw total: <raw> / 20", then
"NOSE score (0–100): <raw * 5> / 100", then one "- <label>: <value>" line
per NOSE item in item order; only NOSE has a scaled line — the SNOT-22
block starts with just "SNOT-22 total: <raw> / 110" and has no second
total line — and scores (1,1,1,1,1) produce exactly the quoted lines. -/
theorem epr_nose_block (d t b : String) (snot : Option (List Int)) (a1 a2 a3 a4 a5 : Int) :
    (["NOSE raw total: " ++ toString (sum [a1, a2, a3, a4, a5]) ++ " / 20",
      "NOSE score (0–100): " ++ toString (sum [a1, a2, a3, a4, a5] * 5) ++ " / 100",
      "- Nasal congestion: " ++ toString a1,
      "- Nasal obstruction: " ++ toString a2,
      "- Trouble breathing through nose: " ++ toString a3,
      "- Trouble sleeping: " ++ toString a4,
      "- Unable to get enough air through nose during exercise: " ++ toString a5]
      <:+: eprLines d t b (some [a1, a2, a3, a4, a5]) snot)
    ∧ (∀ ss : List Int,
        (snotSection (some ss)).head? =
          some ("SNOT-22 total: " ++ toString (sum ss) ++ " / 110")
        ∧ (snotSection (some ss)).length = 24)
    ∧ buildEprText "" "" "" (some [1, 1, 1, 1, 1]) none =
        "PROMs recorded:\n\nNOSE raw total: 5 / 20\nNOSE score (0–100): 25 / 100\n- Nasal congestion: 1\n- Nasal obstruction: 1\n- Trouble breathing through nose: 1\n- Trouble sleeping: 1\n- Unable to get enough air through nose during exercise: 1" := by
  refine ⟨?_, ?_, rfl⟩
  · apply noseSection_infix_eprLines
    · simp [noseSection, NOSE_ITEMS, itemLines, jsShowAt]
    · simp only [List.getLast?_cons_cons, List.getLast?_singleton, ne_eq, Option.some.injEq]
      exact append_ne_empty_of_left _ _ (by decide)
  · intro ss
    constructor
    · simp [snotSection]
    · simp [snotSection, itemLines_length, SNOT_ITEMS]

lemma eprLines_line_head (d t b : String) (nose snot : Option (List Int)) (line : String)
    (h : line ∈ eprLines d t b nose snot) :
    line = ""
    ∨ (∃ r, line.data = 'P' :: r)
    ∨ (∃ r, line.data = 'D' :: r)
    ∨ (∃ r, line.data = 'T' :: r)
    ∨ (∃ r, line.data = '-' :: r)
    ∨ (nose ≠ none ∧ ∃ r, line.data = 'N' :: r)
    ∨ (snot ≠ none ∧ ∃ r, line.data = 'S' :: r) := by
  simp only [eprLines] at h
  have hmem := (dropTrailingBlanks_sublist _).subset h
  rcases List.mem_append.1 hmem with hmem1 | hsnot
  · rcases List.mem_append.1 hmem1 with hmem2 | hnose
    · rcases List.mem_append.1 hmem2 with hmem3 | hblank
      · rcases List.mem_append.1 hmem3 with hhdr | hmeta
        · rcases List.mem_singleton.1 hhdr with rfl
          exact Or.inr (Or.inl ⟨_, rfl⟩)
        · split at hmeta
          · rename_i hm
            rcases List.mem_singleton.1 hmeta with rfl
            rcases hme : eprMeta d t b with _ | ⟨m0, rest⟩
            · exact absurd hme hm
            · have hh := eprMeta_mem_head d t b m0 (by rw [hme]; exact List.mem_cons_self _ _)
              rcases hh with ⟨r, hr⟩ | ⟨r, hr⟩
              · refine Or.inr (Or.inr (Or.inl
                  ⟨r ++ ((rest.map (fun x => (" | " : String).data ++ x.data)).flatten), ?_⟩))
                rw [intercalate_cons_data, hr]
                rfl
              · refine Or.inr (Or.inr (Or.inr (Or.inl
                  ⟨r ++ ((rest.map (fun x => (" | " : String).data ++ x.data)).flatten), ?_⟩)))
                rw [intercalate_cons_data, hr]
                rfl
          · simp at hmeta
      · rcases List.mem_singleton.1 hblank with rfl
        exact Or.inl rfl
    · rcases nose with _ | nums
      · simp [noseSection] at hnose
      · rw [noseSection] at hnose
        rcases List.mem_cons.1 hnose with rfl | hnose
        · obtain ⟨u, hu⟩ := data_head_of_left (x := toString (sum nums))
            (show ("NOSE raw total: " : String).data = 'N' :: _ from rfl)
          obtain ⟨w, hw⟩ := data_head_of_left (x := " / 20") hu
          exact Or.inr (Or.inr (Or.inr (Or.inr (Or.inr (Or.inl ⟨by simp, w, hw⟩)))))
        · rcases List.mem_cons.1 hnose with rfl | hnose
          · obtain ⟨u, hu⟩ := data_head_of_left (x := toString (sum nums * 5))
              (show ("NOSE score (0–100): " : String).data = 'N' :: _ from rfl)
            obtain ⟨w, hw⟩ := data_head_of_left (x := " / 100") hu
            exact Or.inr (Or.inr (Or.inr (Or.inr (Or.inr (Or.inl ⟨by simp, w, hw⟩)))))
          · rcases List.mem_append.1 hnose with hitem | hbl
            · obtain ⟨r, hr⟩ := mem_itemLines_head nums NOSE_ITEMS 0 line hitem
              exact Or.inr (Or.inr (Or.inr (Or.inr (Or.inl ⟨r, hr⟩))))
            · rcases List.mem_singleton.1 hbl with rfl
              exact Or.inl rfl
  · rcases snot with _ | nums
    · simp [snotSection] at hsnot
    · rw [snotSection] at hsnot
      rcases List.mem_cons.1 hsnot with rfl | hsnot
      · obtain ⟨u, hu⟩ := data_head_of_left (x := toString (sum nums))
          (show ("SNOT-22 total: " : String).data = 'S' :: _ from rfl)
        obtain ⟨w, hw⟩ := data_head_of_left (x := " / 110") hu
        exact Or.inr (Or.inr (Or.inr (Or.inr (Or.inr (Or.inr ⟨by simp, w, hw⟩)))))
      · rcases List.mem_append.1 hsnot with hitem | hbl
        · obtain ⟨r, hr⟩ := mem_itemLines_head nums SNOT_ITEMS 0 line hitem
          exact Or.inr (Or.inr (Or.inr (Or.inr (Or.inl ⟨r, hr⟩))))
        · rcases List.mem_singleton.1 hbl with rfl
          exact Or.inl rfl

/-! ### Claim theorem: narrative serializer, omitted blocks and trimming -/

/-- C6: omitting an instrument's scores omits its entire narrative block —
`noseSection none` and `snotSection none` contribute no lines, no line of a
report without NOSE scores starts with "NOSE", no line of a report without
SNOT-22 scores starts with "SNOT-22" — and the report never ends with a
blank line: all trailing blank lines are trimmed. -/
theorem epr_omitted_blocks :
    noseSection none = []
    ∧ snotSection none = []
    ∧ (∀ d t b snot line, line ∈ eprLines d t b none snot →
        ¬ (("NOSE" : String).data <+: line.data))
    ∧ (∀ d t b nose line, line ∈ eprLines d t b nose none →
        ¬ (("SNOT-22" : String).data <+: line.data))
    ∧ (∀ d t b nose snot, (eprLines d t b nose snot).getLast? ≠ some "") := by
  refine ⟨rfl, rfl, ?_, ?_, ?_⟩
  · intro d t b snot line hline
    rcases eprLines_line_head d t b none snot line hline with
      rfl | ⟨r, hr⟩ | ⟨r, hr⟩ | ⟨r, hr⟩ | ⟨r, hr⟩ | ⟨hne, _⟩ | ⟨_, r, hr⟩
    · exact not_prefix_of_nil rfl rfl
    · exact not_prefix_of_head_ne rfl hr (by decide)
    · exact not_prefix_of_head_ne rfl hr (by decide)
    · exact not_prefix_of_head_ne rfl hr (by decide)
    · exact not_prefix_of_head_ne rfl hr (by decide)
    · exact absurd rfl hne
    · exact not_prefix_of_head_ne rfl hr (by decide)
  · intro d t b nose line hline
    rcases eprLines_line_head d t b nose none line hline with
      rfl | ⟨r, hr⟩ | ⟨r, hr⟩ | ⟨r, hr⟩ | ⟨r, hr⟩ | ⟨_, r, hr⟩ | ⟨hne, _⟩
    · exact not_prefix_of_nil rfl rfl
    · exact not_prefix_of_head_ne rfl hr (by decide)
    · exact not_prefix_of_head_ne rfl hr (by decide)
    · exact not_prefix_of_head_ne rfl hr (by decide)
    · exact not_prefix_of_head_ne rfl hr (by decide)
    · exact not_prefix_of_head_ne rfl hr (by decide)
    · exact absurd rfl hne
  · intro d t b nose snot
    simp only [eprLines]
    exact getLast?_dropTrailingBlanks _

/-- C6 witness: the header line of a SNOT-only report is a line of the
report and does not start with "NOSE". -/
theorem epr_omitted_blocks_witness :
    "PROMs recorded:" ∈ eprLines "" "" "" none (some [2])
    ∧ ¬ (("NOSE" : String).data <+: ("PROMs recorded:" : String).data) := by
  have hmem : "PROMs recorded:" ∈ eprLines "" "" "" none (some [2]) := by decide
  exact ⟨hmem, epr_omitted_blocks.2.2.1 "" "" "" (some [2]) "PROMs recorded:" hmem⟩

/-- Validation gate reduction used by the message composer proofs. -/
lemma assertOk (label : String) (scores : List (Option Int))
    (h : completionState scores ≠ .partialState) :
    assertNotPartialOrThrow label scores = .ok (completionState scores) := by
  simp [assertNotPartialOrThrow, h]

/-! ### Claim theorems: message composer -/

/-- C7: the subject of every successfully composed patient message is
"NASALPROM PROMs" joined with " – " to the DD/MM/YYYY date (when present)
and the timepoint (when present), empty fields being skipped; for date
"2024-03-05" and timepoint "Pre-op" it is exactly
"NASALPROM PROMs – 05/03/2024 – Pre-op". -/
theorem patient_message_subject (inc : Bool) (d t : String) (ns ss : List (Option Int))
    (hn : completionState ns ≠ .partialState) (hs : completionState ss ≠ .partialState)
    (hne : ¬ (completionState ns = .empty ∧ completionState ss = .empty)) :
    (buildPatientMessageOrThrow inc d t ns ss).map PatientMessage.subject =
      .ok (String.intercalate " – " (["NASALPROM PROMs"] ++
        (if d ≠ "" then [ddmmyyyy d] else []) ++ (if t ≠ "" then [t] else [])))
    ∧ (buildPatientMessageOrThrow true "2024-03-05" "Pre-op" [some 1] []).map PatientMessage.subject
        = .ok "NASALPROM PROMs – 05/03/2024 – Pre-op" := by
  constructor
  · simp only [buildPatientMessageOrThrow, assertOk "NOSE" ns hn, assertOk "SNOT-22" ss hs,
      if_neg hne]
    split <;> rfl
  · have hd : ddmmyyyy "2024-03-05" = "05/03/2024" := by
      simp only [ddmmyyyy, String.split_of_valid]
      decide
    simp only [buildPatientMessageOrThrow,
      show assertNotPartialOrThrow "NOSE" [some 1] = .ok .complete from rfl,
      show assertNotPartialOrThrow "SNOT-22" ([] : List (Option Int)) = .ok .empty from rfl]
    rw [if_neg (by decide), if_neg (by decide)]
    simp only [Except.map, hd]
    exact congrArg Except.ok (by decide)

/-- C7 witness: the composed message for a complete one-item NOSE list on
2024-03-05 at "Pre-op" has exactly the expected subject. -/
theorem patient_message_subject_witness :
    (buildPatientMessageOrThrow true "2024-03-05" "Pre-op" [some 1] []).map PatientMessage.subject
      = .ok "NASALPROM PROMs – 05/03/2024 – Pre-op" :=
  (patient_message_subject true "2024-03-05" "Pre-op" [some 1] []
    (by decide) (by decide) (by decide)).2

/-- C8: for every successfully composed patient message, with the
include-TSV flag set (its default, true) the body is the narrative text, a
blank line, the labeled tabular block — "FULL TSV:" in full mode,
"NOSE TSV only:" in nose-only mode, "SNOT-22 TSV only:" in snot-only mode —
with the corresponding row, and a trailing newline; with the flag false the
body is the narrative text followed by a single trailing newline and no
tabular block. -/
theorem patient_message_body (inc : Bool) (d t : String) (ns ss : List (Option Int))
    (hn : completionState ns ≠ .partialState) (hs : completionState ss ≠ .partialState)
    (hne : ¬ (completionState ns = .empty ∧ completionState ss = .empty)) :
    (inc = true → completionState ns = .complete → completionState ss = .complete →
      (buildPatientMessageOrThrow inc d t ns ss).map PatientMessage.body =
        .ok (buildEprText d t "" (some (scoresToNumbers ns)) (some (scoresToNumbers ss)) ++
          "\n\n" ++ ("FULL TSV:\n" ++ buildFullBlockTSV (scoresToNumbers ns) (scoresToNumbers ss)) ++ "\n"))
    ∧ (inc = true → completionState ns = .complete → completionState ss = .empty →
      (buildPatientMessageOrThrow inc d t ns ss).map PatientMessage.body =
        .ok (buildEprText d t "" (some (scoresToNumbers ns)) none ++
          "\n\n" ++ ("NOSE TSV only:\n" ++ buildNoseOnlyTSV (scoresToNumbers ns)) ++ "\n"))
    ∧ (inc = true → completionState ns = .empty → completionState ss = .complete →
      (buildPatientMessageOrThrow inc d t ns ss).map PatientMessage.body =
        .ok (buildEprText d t "" none (some (scoresToNumbers ss)) ++
          "\n\n" ++ ("SNOT-22 TSV only:\n" ++ buildSnotOnlyTSV (scoresToNumbers ss)) ++ "\n"))
    ∧ (inc = false →
      (buildPatientMessageOrThrow inc d t ns ss).map PatientMessage.body =
        .ok (buildEprText d t ""
          (if completionState ns = .complete then some (scoresToNumbers ns) else none)
          (if completionState ss = .complete then some (scoresToNumbers ss) else none) ++ "\n")) := by
  refine ⟨?_, ?_, ?_, ?_⟩
  · rintro rfl h1 h2
    simp only [buildPatientMessageOrThrow, assertOk "NOSE" ns hn, assertOk "SNOT-22" ss hs,
      if_neg hne, h1, h2, tsvBits]
    rfl
  · rintro rfl h1 h2
    simp only [buildPatientMessageOrThrow, assertOk "NOSE" ns hn, assertOk "SNOT-22" ss hs,
      if_neg hne, h1, h2, tsvBits]
    rfl
  · rintro rfl h1 h2
    simp only [buildPatientMessageOrThrow, assertOk "NOSE" ns hn, assertOk "SNOT-22" ss hs,
      if_neg hne, h1, h2, tsvBits]
    rfl
  · rintro rfl
    simp only [buildPatientMessageOrThrow, assertOk "NOSE" ns hn, assertOk "SNOT-22" ss hs,
      if_neg hne]
    rfl

/-- C8 witness: with a complete one-item NOSE list and an empty SNOT list
the body is the narrative plus the labeled NOSE-only TSV block. -/
theorem patient_message_body_witness :
    (buildPatientMessageOrThrow true "" "" [some 1] []).map PatientMessage.body =
      .ok (buildEprText "" "" "" (some (scoresToNumbers [some 1])) none ++
        "\n\n" ++ ("NOSE TSV only:\n" ++ buildNoseOnlyTSV (scoresToNumbers [some 1])) ++ "\n") :=
  (patient_message_body true "" "" [some 1] []
    (by decide) (by decide) (by decide)).2.1 rfl (by decide) (by decide)

end NasalProm
